import Mathlib

/-!
Verification of the diagnostic-reporting core (`crates/interface/src/diagnostics/context.rs`)
and the `str_enum!` configuration-enum helper (`crates/config/src/macros.rs`).

The state type `DiagCtxtInner` and the emission path
`DiagCtxtInner.emit_diagnostic_without_consuming` are translated directly from the Rust
source.  The collaborator types (`Level`, `Diagnostic`, `ErrorGuaranteed`) and the
content-hashing helper live in other crates of the repository and are modelled from the
specification, as noted on each definition.  The external `Emitter` is modelled as a trace:
the list of diagnostics handed to it, in order.
-/

namespace Solar

/-- Modelled from the spec: the closed set of severities
(`Fatal`, `Error`, `Warning`, `Note`, `Help`, `OnceNote`, `OnceHelp`, `Allow`);
the `Level` enum is declared in the diagnostics crate outside the visible sources. -/
inductive Level where
  | Fatal
  | Error
  | Warning
  | Note
  | Help
  | OnceNote
  | OnceHelp
  | Allow
deriving DecidableEq, Repr

/-- Modelled from the spec: the `is_error` policy column of the level table —
`Fatal` and `Error` count toward error totals, every other level does not. -/
def Level.is_error : Level → Bool
  | .Fatal => true
  | .Error => true
  | _ => false

/-- Modelled from the spec: a sub-diagnostic ("child") is itself a leveled message,
typically at `Note`/`Help`/`OnceNote`/`OnceHelp` level, attached to a parent diagnostic. -/
structure SubDiagnostic where
  level : Level
  message : String
deriving DecidableEq, Repr

/-- Modelled from the spec: a `Diagnostic` is a level, a primary message, and an ordered
sequence of sub-diagnostics; the struct itself is declared outside the visible sources. -/
structure Diagnostic where
  level : Level
  message : String
  children : List SubDiagnostic
deriving DecidableEq, Repr

/-- `Diagnostic::is_error`, forwarding to the level's policy. -/
def Diagnostic.is_error (d : Diagnostic) : Bool :=
  d.level.is_error

/-- The zero-size proof token `ErrorGuaranteed(())`. -/
inductive ErrorGuaranteed where
  | mk : ErrorGuaranteed
deriving DecidableEq, Repr

/-- Modelled from the spec: the content hash stored in the emitted set.  The spec
idealizes the hash as computed over the full content so that two diagnostics are "the
same" iff their rendered content is identical; we therefore store the hashed content
itself.  `insert_diagnostic` is generic over what it hashes and is called both on whole
diagnostics and on single sub-diagnostics, so the key is the disjoint sum of the two. -/
inductive HashKey where
  | diag (d : Diagnostic) : HashKey
  | sub (sd : SubDiagnostic) : HashKey
deriving DecidableEq, Repr

/-- The lock-guarded interior of `DiagCtxt` (struct `DiagCtxtInner`), plus the emitter
modelled as the trace of diagnostics it has been asked to render, in call order. -/
structure DiagCtxtInner where
  err_count : Nat
  deduplicated_err_count : Nat
  warn_count : Nat
  deduplicated_warn_count : Nat
  emitted_diagnostics : List HashKey
  can_emit_warnings : Bool
  emitter_trace : List Diagnostic
deriving DecidableEq, Repr

/-- `DiagCtxt::new`: all counters zero, empty emitted set, warnings enabled. -/
def DiagCtxtInner.new : DiagCtxtInner where
  err_count := 0
  deduplicated_err_count := 0
  warn_count := 0
  deduplicated_warn_count := 0
  emitted_diagnostics := []
  can_emit_warnings := true
  emitter_trace := []

/-- `DiagCtxt::disable_warnings`. -/
def DiagCtxtInner.disable_warnings (s : DiagCtxtInner) : DiagCtxtInner :=
  { s with can_emit_warnings := false }

/-- `DiagCtxtInner::insert_diagnostic`: test-and-insert the content hash into
`emitted_diagnostics`, returning `true` iff it was already present. -/
def DiagCtxtInner.insert_diagnostic (s : DiagCtxtInner) (h : HashKey) :
    Bool × DiagCtxtInner :=
  if h ∈ s.emitted_diagnostics then
    (true, s)
  else
    (false, { s with emitted_diagnostics := h :: s.emitted_diagnostics })

/-- `DiagCtxtInner::bump_err_count`. -/
def DiagCtxtInner.bump_err_count (s : DiagCtxtInner) : DiagCtxtInner :=
  { s with err_count := s.err_count + 1 }

/-- `DiagCtxtInner::bump_warn_count`. -/
def DiagCtxtInner.bump_warn_count (s : DiagCtxtInner) : DiagCtxtInner :=
  { s with warn_count := s.warn_count + 1 }

/-- The `retain_mut` pass over `diagnostic.children`: a non-`Once*` child is always kept;
a `OnceNote`/`OnceHelp` child is test-and-inserted into the emitted set and kept iff it
was not already present.  State threads left to right; returns (kept children, state). -/
def DiagCtxtInner.retainChildren (s : DiagCtxtInner) :
    List SubDiagnostic → List SubDiagnostic × DiagCtxtInner
  | [] => ([], s)
  | sub :: rest =>
    if sub.level = .OnceNote ∨ sub.level = .OnceHelp then
      let r := s.insert_diagnostic (.sub sub)
      let q := r.2.retainChildren rest
      (if r.1 then q.1 else sub :: q.1, q.2)
    else
      let q := s.retainChildren rest
      (sub :: q.1, q.2)

/-- `DiagCtxtInner::emit_diagnostic_without_consuming`, the single emission path:
warning gating, `Allow` drop, dedup via test-and-insert, `Once*` child trimming,
emitter call, deduplicated-counter bumps, then total-counter bump and token minting. -/
def DiagCtxtInner.emit_diagnostic_without_consuming (s : DiagCtxtInner) (d : Diagnostic) :
    Option ErrorGuaranteed × DiagCtxtInner :=
  if d.level = .Warning ∧ s.can_emit_warnings = false then
    (none, s)
  else if d.level = .Allow then
    (none, s)
  else
    let ins := s.insert_diagnostic (.diag d)
    let already_emitted := ins.1
    let s₂ :=
      if already_emitted then ins.2
      else
        let ret := ins.2.retainChildren d.children
        let d' := { d with children := ret.1 }
        let s₃ := { ret.2 with emitter_trace := ret.2.emitter_trace ++ [d'] }
        if d'.is_error then
          { s₃ with deduplicated_err_count := s₃.deduplicated_err_count + 1 }
        else if d'.level = .Warning then
          { s₃ with deduplicated_warn_count := s₃.deduplicated_warn_count + 1 }
        else
          s₃
    if d.is_error then
      (some .mk, s₂.bump_err_count)
    else
      (none, s₂.bump_warn_count)

/-- `DiagCtxt::emit_diagnostic`, which just forwards to the inner emission path. -/
def DiagCtxtInner.emit_diagnostic (s : DiagCtxtInner) (d : Diagnostic) :
    Option ErrorGuaranteed × DiagCtxtInner :=
  s.emit_diagnostic_without_consuming d

/-- The states of a `DiagCtxt` reachable from construction by any sequence of
`emit_diagnostic` and `disable_warnings` calls. -/
inductive Reachable : DiagCtxtInner → Prop where
  | new : Reachable DiagCtxtInner.new
  | emit (s : DiagCtxtInner) (d : Diagnostic) :
      Reachable s → Reachable (s.emit_diagnostic d).2
  | disable (s : DiagCtxtInner) :
      Reachable s → Reachable s.disable_warnings

/-- Written from the claim's words, to be compared with `retainChildren` from the source:
keep every child that is not `OnceNote`/`OnceHelp` in its original order; remove every
`OnceNote`/`OnceHelp` child whose own content was already recorded, recording each newly
seen `Once*` child as it goes. -/
def onceKeptSpec (seen : List HashKey) : List SubDiagnostic → List SubDiagnostic
  | [] => []
  | sub :: rest =>
    if sub.level = .OnceNote ∨ sub.level = .OnceHelp then
      if HashKey.sub sub ∈ seen then
        onceKeptSpec seen rest
      else
        sub :: onceKeptSpec (HashKey.sub sub :: seen) rest
    else
      sub :: onceKeptSpec seen rest

/-- A `std::fmt::Formatter`, modelled as the text written to it so far. -/
structure Formatter where
  buf : String
deriving DecidableEq, Repr

/-- `Formatter::write_str`: appends to the output. -/
def Formatter.write_str (f : Formatter) (s : String) : Formatter :=
  ⟨f.buf ++ s⟩

/-- One instantiation of the `str_enum!` macro, given by the identifier strings of its
variants; a value of the enumeration is an index into that list. -/
structure StrEnumDef where
  variants : List String

/-- A value of a `str_enum!` enumeration. -/
def StrEnumDef.Value (e : StrEnumDef) : Type :=
  Fin e.variants.length

/-- Modelled from the spec: the `strum::IntoStaticStr`-derived conversion (`self.into()`)
returns the variant's static identifier string; the derive lives in an external crate. -/
def StrEnumDef.intoStaticStr (e : StrEnumDef) (v : e.Value) : String :=
  e.variants.get v

/-- The macro's generated `to_str`, defined as `self.into()`. -/
def StrEnumDef.to_str (e : StrEnumDef) (v : e.Value) : String :=
  e.intoStaticStr v

/-- The macro's generated `Display::fmt`: `f.write_str(self.to_str())`. -/
def StrEnumDef.fmt (e : StrEnumDef) (v : e.Value) (f : Formatter) : Formatter :=
  f.write_str (e.to_str v)

theorem is_error_mk (l : Level) (m : String) (cs : List SubDiagnostic) :
    (Diagnostic.mk l m cs).is_error = l.is_error :=
  rfl

theorem level_mk (l : Level) (m : String) (cs : List SubDiagnostic) :
    (Diagnostic.mk l m cs).level = l :=
  rfl

theorem insert_of_mem {s : DiagCtxtInner} {h : HashKey}
    (hm : h ∈ s.emitted_diagnostics) : s.insert_diagnostic h = (true, s) := by
  simp [DiagCtxtInner.insert_diagnostic, hm]

theorem insert_of_not_mem {s : DiagCtxtInner} {h : HashKey}
    (hm : h ∉ s.emitted_diagnostics) :
    s.insert_diagnostic h =
      (false, { s with emitted_diagnostics := h :: s.emitted_diagnostics }) := by
  simp [DiagCtxtInner.insert_diagnostic, hm]

theorem insert_err_count (s : DiagCtxtInner) (h : HashKey) :
    ((s.insert_diagnostic h).2).err_count = s.err_count := by
  unfold DiagCtxtInner.insert_diagnostic; split <;> rfl

theorem insert_dedup_err_count (s : DiagCtxtInner) (h : HashKey) :
    ((s.insert_diagnostic h).2).deduplicated_err_count = s.deduplicated_err_count := by
  unfold DiagCtxtInner.insert_diagnostic; split <;> rfl

theorem insert_warn_count (s : DiagCtxtInner) (h : HashKey) :
    ((s.insert_diagnostic h).2).warn_count = s.warn_count := by
  unfold DiagCtxtInner.insert_diagnostic; split <;> rfl

theorem insert_dedup_warn_count (s : DiagCtxtInner) (h : HashKey) :
    ((s.insert_diagnostic h).2).deduplicated_warn_count = s.deduplicated_warn_count := by
  unfold DiagCtxtInner.insert_diagnostic; split <;> rfl

theorem insert_can_emit_warnings (s : DiagCtxtInner) (h : HashKey) :
    ((s.insert_diagnostic h).2).can_emit_warnings = s.can_emit_warnings := by
  unfold DiagCtxtInner.insert_diagnostic; split <;> rfl

theorem insert_emitter_trace (s : DiagCtxtInner) (h : HashKey) :
    ((s.insert_diagnostic h).2).emitter_trace = s.emitter_trace := by
  unfold DiagCtxtInner.insert_diagnostic; split <;> rfl

theorem insert_mem_mono {s : DiagCtxtInner} {h x : HashKey}
    (hx : x ∈ s.emitted_diagnostics) :
    x ∈ ((s.insert_diagnostic h).2).emitted_diagnostics := by
  by_cases hm : h ∈ s.emitted_diagnostics
  · simpa [insert_of_mem hm] using hx
  · simp only [insert_of_not_mem hm]
    exact List.mem_cons_of_mem _ hx

theorem insert_mem_self (s : DiagCtxtInner) (h : HashKey) :
    h ∈ ((s.insert_diagnostic h).2).emitted_diagnostics := by
  by_cases hm : h ∈ s.emitted_diagnostics
  · simpa [insert_of_mem hm] using hm
  · simp [insert_of_not_mem hm]

theorem retain_err_count (cs : List SubDiagnostic) (s : DiagCtxtInner) :
    ((s.retainChildren cs).2).err_count = s.err_count := by
  induction cs generalizing s with
  | nil => rfl
  | cons sub rest ih =>
    simp only [DiagCtxtInner.retainChildren]
    split
    · exact (ih _).trans (insert_err_count s _)
    · exact ih s

theorem retain_dedup_err_count (cs : List SubDiagnostic) (s : DiagCtxtInner) :
    ((s.retainChildren cs).2).deduplicated_err_count = s.deduplicated_err_count := by
  induction cs generalizing s with
  | nil => rfl
  | cons sub rest ih =>
    simp only [DiagCtxtInner.retainChildren]
    split
    · exact (ih _).trans (insert_dedup_err_count s _)
    · exact ih s

theorem retain_warn_count (cs : List SubDiagnostic) (s : DiagCtxtInner) :
    ((s.retainChildren cs).2).warn_count = s.warn_count := by
  induction cs generalizing s with
  | nil => rfl
  | cons sub rest ih =>
    simp only [DiagCtxtInner.retainChildren]
    split
    · exact (ih _).trans (insert_warn_count s _)
    · exact ih s

theorem retain_dedup_warn_count (cs : List SubDiagnostic) (s : DiagCtxtInner) :
    ((s.retainChildren cs).2).deduplicated_warn_count = s.deduplicated_warn_count := by
  induction cs generalizing s with
  | nil => rfl
  | cons sub rest ih =>
    simp only [DiagCtxtInner.retainChildren]
    split
    · exact (ih _).trans (insert_dedup_warn_count s _)
    · exact ih s

theorem retain_can_emit_warnings (cs : List SubDiagnostic) (s : DiagCtxtInner) :
    ((s.retainChildren cs).2).can_emit_warnings = s.can_emit_warnings := by
  induction cs generalizing s with
  | nil => rfl
  | cons sub rest ih =>
    simp only [DiagCtxtInner.retainChildren]
    split
    · exact (ih _).trans (insert_can_emit_warnings s _)
    · exact ih s

theorem retain_emitter_trace (cs : List SubDiagnostic) (s : DiagCtxtInner) :
    ((s.retainChildren cs).2).emitter_trace = s.emitter_trace := by
  induction cs generalizing s with
  | nil => rfl
  | cons sub rest ih =>
    simp only [DiagCtxtInner.retainChildren]
    split
    · exact (ih _).trans (insert_emitter_trace s _)
    · exact ih s

theorem retain_mem_mono (cs : List SubDiagnostic) {x : HashKey} :
    ∀ {s : DiagCtxtInner}, x ∈ s.emitted_diagnostics →
      x ∈ ((s.retainChildren cs).2).emitted_diagnostics := by
  induction cs with
  | nil => intro s hx; exact hx
  | cons sub rest ih =>
    intro s hx
    simp only [DiagCtxtInner.retainChildren]
    split
    · exact ih (insert_mem_mono hx)
    · exact ih hx

theorem emit_of_dup {s : DiagCtxtInner} {d : Diagnostic}
    (hW : ¬(d.level = Level.Warning ∧ s.can_emit_warnings = false))
    (hA : ¬d.level = Level.Allow)
    (hm : HashKey.diag d ∈ s.emitted_diagnostics) :
    s.emit_diagnostic_without_consuming d =
      if d.is_error then (some .mk, s.bump_err_count)
      else (none, s.bump_warn_count) := by
  unfold DiagCtxtInner.emit_diagnostic_without_consuming
  rw [if_neg hW, if_neg hA]
  simp only [insert_of_mem hm, if_true]

theorem emit_of_fresh {s : DiagCtxtInner} {d : Diagnostic}
    (hW : ¬(d.level = Level.Warning ∧ s.can_emit_warnings = false))
    (hA : ¬d.level = Level.Allow)
    (hf : HashKey.diag d ∉ s.emitted_diagnostics) :
    s.emit_diagnostic_without_consuming d =
      (let ret := DiagCtxtInner.retainChildren
          { s with emitted_diagnostics := HashKey.diag d :: s.emitted_diagnostics }
          d.children
       let s₃ := { ret.2 with
          emitter_trace := ret.2.emitter_trace ++ [{ d with children := ret.1 }] }
       if d.is_error then
         (some .mk,
          ({ s₃ with
             deduplicated_err_count := s₃.deduplicated_err_count + 1 }).bump_err_count)
       else if d.level = Level.Warning then
         (none,
          ({ s₃ with
             deduplicated_warn_count := s₃.deduplicated_warn_count + 1 }).bump_warn_count)
       else
         (none, s₃.bump_warn_count)) := by
  unfold DiagCtxtInner.emit_diagnostic_without_consuming
  rw [if_neg hW, if_neg hA]
  simp only [insert_of_not_mem hf, Bool.false_eq_true, if_false, is_error_mk, level_mk,
    Diagnostic.is_error]
  by_cases he : d.level.is_error = true
  · simp [he]
  · by_cases hw2 : d.level = Level.Warning
    · simp [he, hw2, Level.is_error]
    · simp [he, hw2]

theorem not_warning_of_is_error {d : Diagnostic} (he : d.is_error = true) :
    d.level ≠ Level.Warning := by
  intro h
  rw [Diagnostic.is_error, h] at he
  exact absurd he (by decide)

theorem not_allow_of_is_error {d : Diagnostic} (he : d.is_error = true) :
    d.level ≠ Level.Allow := by
  intro h
  rw [Diagnostic.is_error, h] at he
  exact absurd he (by decide)

theorem retain_fst_eq_spec (cs : List SubDiagnostic) :
    ∀ s : DiagCtxtInner,
      (s.retainChildren cs).1 = onceKeptSpec s.emitted_diagnostics cs := by
  induction cs with
  | nil => intro s; rfl
  | cons sub rest ih =>
    intro s
    simp only [DiagCtxtInner.retainChildren, onceKeptSpec]
    by_cases ho : sub.level = Level.OnceNote ∨ sub.level = Level.OnceHelp
    · rw [if_pos ho, if_pos ho]
      by_cases hm : HashKey.sub sub ∈ s.emitted_diagnostics
      · rw [if_pos hm]
        simp [insert_of_mem hm, ih]
      · rw [if_neg hm]
        simp [insert_of_not_mem hm, ih]
    · rw [if_neg ho, if_neg ho]
      simp [ih]

theorem onceKeptSpec_sublist (cs : List SubDiagnostic) :
    ∀ seen : List HashKey, List.Sublist (onceKeptSpec seen cs) cs := by
  induction cs with
  | nil => intro seen; exact List.Sublist.refl []
  | cons sub rest ih =>
    intro seen
    simp only [onceKeptSpec]
    split
    · split
      · exact List.Sublist.cons _ (ih seen)
      · exact List.Sublist.cons₂ _ (ih _)
    · exact List.Sublist.cons₂ _ (ih seen)

theorem onceKeptSpec_filter (cs : List SubDiagnostic) :
    ∀ seen : List HashKey,
      (onceKeptSpec seen cs).filter
          (fun c => !decide (c.level = Level.OnceNote) && !decide (c.level = Level.OnceHelp)) =
        cs.filter
          (fun c => !decide (c.level = Level.OnceNote) && !decide (c.level = Level.OnceHelp)) := by
  induction cs with
  | nil => intro seen; rfl
  | cons sub rest ih =>
    intro seen
    simp only [onceKeptSpec]
    by_cases ho : sub.level = Level.OnceNote ∨ sub.level = Level.OnceHelp
    · have hp : (!decide (sub.level = Level.OnceNote) &&
          !decide (sub.level = Level.OnceHelp)) = false := by
        rcases ho with h | h <;> simp [h]
      rw [if_pos ho]
      by_cases hm : HashKey.sub sub ∈ seen
      · rw [if_pos hm, ih seen, List.filter_cons, hp]
        simp
      · rw [if_neg hm, List.filter_cons, List.filter_cons, hp]
        simp only [Bool.false_eq_true, if_false]
        exact ih _
    · have hno := not_or.mp ho
      have hp : (!decide (sub.level = Level.OnceNote) &&
          !decide (sub.level = Level.OnceHelp)) = true := by
        simp [hno.1, hno.2]
      rw [if_neg ho, List.filter_cons, List.filter_cons, hp]
      simp only [if_true]
      rw [ih seen]

theorem onceKeptSpec_not_mem_of_seen (cs : List SubDiagnostic) {c : SubDiagnostic}
    (hc : c.level = Level.OnceNote ∨ c.level = Level.OnceHelp) :
    ∀ seen : List HashKey, HashKey.sub c ∈ seen → c ∉ onceKeptSpec seen cs := by
  induction cs with
  | nil => intro seen _ hmem; simp [onceKeptSpec] at hmem
  | cons sub rest ih =>
    intro seen hseen
    simp only [onceKeptSpec]
    by_cases ho : sub.level = Level.OnceNote ∨ sub.level = Level.OnceHelp
    · rw [if_pos ho]
      by_cases hm : HashKey.sub sub ∈ seen
      · rw [if_pos hm]
        exact ih seen hseen
      · rw [if_neg hm]
        intro hmem
        rcases List.mem_cons.mp hmem with h1 | h2
        · exact hm (h1 ▸ hseen)
        · exact ih _ (List.mem_cons_of_mem _ hseen) h2
    · rw [if_neg ho]
      intro hmem
      rcases List.mem_cons.mp hmem with h1 | h2
      · exact ho (h1 ▸ hc)
      · exact ih seen hseen h2

theorem onceKeptSpec_not_seen_of_mem (cs : List SubDiagnostic) {c : SubDiagnostic}
    (hc : c.level = Level.OnceNote ∨ c.level = Level.OnceHelp) :
    ∀ seen : List HashKey, c ∈ onceKeptSpec seen cs → HashKey.sub c ∉ seen := by
  induction cs with
  | nil => intro seen hmem; simp [onceKeptSpec] at hmem
  | cons sub rest ih =>
    intro seen hmem
    simp only [onceKeptSpec] at hmem
    by_cases ho : sub.level = Level.OnceNote ∨ sub.level = Level.OnceHelp
    · rw [if_pos ho] at hmem
      by_cases hm : HashKey.sub sub ∈ seen
      · rw [if_pos hm] at hmem
        exact ih seen hmem
      · rw [if_neg hm] at hmem
        rcases List.mem_cons.mp hmem with h1 | h2
        · exact h1 ▸ hm
        · intro hseen
          exact ih _ h2 (List.mem_cons_of_mem _ hseen)
    · rw [if_neg ho] at hmem
      rcases List.mem_cons.mp hmem with h1 | h2
      · exact absurd (h1 ▸ hc) ho
      · exact ih seen h2

theorem emit_fst {s : DiagCtxtInner} {d : Diagnostic}
    (hW : ¬(d.level = Level.Warning ∧ s.can_emit_warnings = false))
    (hA : ¬d.level = Level.Allow) :
    (s.emit_diagnostic_without_consuming d).1 =
      if d.is_error then some ErrorGuaranteed.mk else none := by
  by_cases hm : HashKey.diag d ∈ s.emitted_diagnostics
  · rw [emit_of_dup hW hA hm]
    by_cases he : d.is_error = true
    · rw [if_pos he, if_pos he]
    · rw [if_neg he, if_neg he]
  · rw [emit_of_fresh hW hA hm]
    by_cases he : d.is_error = true
    · rw [if_pos he, if_pos he]
    · rw [if_neg he, if_neg he]
      by_cases hw2 : d.level = Level.Warning
      · rw [if_pos hw2]
      · rw [if_neg hw2]

theorem emit_fresh_fields {s : DiagCtxtInner} {d : Diagnostic}
    (hW : ¬(d.level = Level.Warning ∧ s.can_emit_warnings = false))
    (hA : ¬d.level = Level.Allow)
    (hf : HashKey.diag d ∉ s.emitted_diagnostics) :
    (s.emit_diagnostic_without_consuming d).2.err_count =
        s.err_count + (if d.is_error then 1 else 0) ∧
      (s.emit_diagnostic_without_consuming d).2.warn_count =
        s.warn_count + (if d.is_error then 0 else 1) ∧
      (s.emit_diagnostic_without_consuming d).2.deduplicated_err_count =
        s.deduplicated_err_count + (if d.is_error then 1 else 0) ∧
      (s.emit_diagnostic_without_consuming d).2.deduplicated_warn_count =
        s.deduplicated_warn_count + (if d.level = Level.Warning then 1 else 0) ∧
      (s.emit_diagnostic_without_consuming d).2.emitter_trace =
        s.emitter_trace ++
          [{ d with children :=
              onceKeptSpec (HashKey.diag d :: s.emitted_diagnostics) d.children }] ∧
      (s.emit_diagnostic_without_consuming d).2.can_emit_warnings =
        s.can_emit_warnings ∧
      HashKey.diag d ∈ (s.emit_diagnostic_without_consuming d).2.emitted_diagnostics := by
  have hmem : HashKey.diag d ∈
      ((({ s with emitted_diagnostics :=
            HashKey.diag d :: s.emitted_diagnostics }).retainChildren
          d.children)).2.emitted_diagnostics :=
    retain_mem_mono d.children (List.mem_cons_self _ _)
  rw [emit_of_fresh hW hA hf]
  by_cases he : d.is_error = true
  · have hnw := not_warning_of_is_error he
    simp [he, hnw, DiagCtxtInner.bump_err_count, retain_err_count, retain_warn_count,
      retain_dedup_err_count, retain_dedup_warn_count, retain_can_emit_warnings,
      retain_emitter_trace, retain_fst_eq_spec, hmem]
  · by_cases hw2 : d.level = Level.Warning
    · simp [he, hw2, DiagCtxtInner.bump_warn_count, retain_err_count, retain_warn_count,
        retain_dedup_err_count, retain_dedup_warn_count, retain_can_emit_warnings,
        retain_emitter_trace, retain_fst_eq_spec, hmem]
    · simp [he, hw2, DiagCtxtInner.bump_warn_count, retain_err_count, retain_warn_count,
        retain_dedup_err_count, retain_dedup_warn_count, retain_can_emit_warnings,
        retain_emitter_trace, retain_fst_eq_spec, hmem]

theorem emit_preserves_dedup_le {s : DiagCtxtInner} (d : Diagnostic)
    (h1 : s.deduplicated_err_count ≤ s.err_count)
    (h2 : s.deduplicated_warn_count ≤ s.warn_count) :
    (s.emit_diagnostic d).2.deduplicated_err_count ≤
        (s.emit_diagnostic d).2.err_count ∧
      (s.emit_diagnostic d).2.deduplicated_warn_count ≤
        (s.emit_diagnostic d).2.warn_count := by
  unfold DiagCtxtInner.emit_diagnostic
  by_cases hW : d.level = Level.Warning ∧ s.can_emit_warnings = false
  · unfold DiagCtxtInner.emit_diagnostic_without_consuming
    rw [if_pos hW]
    exact ⟨h1, h2⟩
  · by_cases hA : d.level = Level.Allow
    · unfold DiagCtxtInner.emit_diagnostic_without_consuming
      rw [if_neg hW, if_pos hA]
      exact ⟨h1, h2⟩
    · by_cases hm : HashKey.diag d ∈ s.emitted_diagnostics
      · rw [emit_of_dup hW hA hm]
        by_cases he : d.is_error = true
        · rw [if_pos he]
          exact ⟨Nat.le_succ_of_le h1, h2⟩
        · rw [if_neg he]
          exact ⟨h1, Nat.le_succ_of_le h2⟩
      · obtain ⟨f1, f2, f3, f4, -, -, -⟩ := emit_fresh_fields hW hA hm
        constructor
        · rw [f3, f1]
          by_cases he : d.is_error = true <;> simp [he] <;> omega
        · rw [f4, f2]
          by_cases hw2 : d.level = Level.Warning
          · have he : ¬d.is_error = true := by
              simp [Diagnostic.is_error, hw2, Level.is_error]
            simp [hw2, he]
            omega
          · by_cases he : d.is_error = true <;> simp [hw2, he] <;> omega

theorem emit_mem_mono {s : DiagCtxtInner} (d : Diagnostic) {x : HashKey}
    (hx : x ∈ s.emitted_diagnostics) :
    x ∈ (s.emit_diagnostic_without_consuming d).2.emitted_diagnostics := by
  by_cases hW : d.level = Level.Warning ∧ s.can_emit_warnings = false
  · have hs : s.emit_diagnostic_without_consuming d = (none, s) := by
      unfold DiagCtxtInner.emit_diagnostic_without_consuming
      rw [if_pos hW]
    rw [hs]
    exact hx
  · by_cases hA : d.level = Level.Allow
    · have hs : s.emit_diagnostic_without_consuming d = (none, s) := by
        unfold DiagCtxtInner.emit_diagnostic_without_consuming
        rw [if_neg hW, if_pos hA]
      rw [hs]
      exact hx
    · by_cases hm : HashKey.diag d ∈ s.emitted_diagnostics
      · rw [emit_of_dup hW hA hm]
        by_cases he : d.is_error = true
        · rw [if_pos he]; exact hx
        · rw [if_neg he]; exact hx
      · rw [emit_of_fresh hW hA hm]
        by_cases he : d.is_error = true
        · rw [if_pos he]
          exact retain_mem_mono d.children (List.mem_cons_of_mem _ hx)
        · rw [if_neg he]
          by_cases hw2 : d.level = Level.Warning
          · rw [if_pos hw2]
            exact retain_mem_mono d.children (List.mem_cons_of_mem _ hx)
          · rw [if_neg hw2]
            exact retain_mem_mono d.children (List.mem_cons_of_mem _ hx)

/-- C2: for every Error-level diagnostic, `emit_diagnostic` increments `err_count` and
returns `Some(ErrorGuaranteed)`, even when the diagnostic is a duplicate of one already
emitted — duplicates still count toward failure. -/
theorem c2_error_guaranteed_and_counted (s : DiagCtxtInner) (d : Diagnostic)
    (hlvl : d.level = Level.Error) :
    (s.emit_diagnostic d).1 = some ErrorGuaranteed.mk ∧
      (s.emit_diagnostic d).2.err_count = s.err_count + 1 := by
  have he : d.is_error = true := by simp [Diagnostic.is_error, hlvl, Level.is_error]
  have hW : ¬(d.level = Level.Warning ∧ s.can_emit_warnings = false) := fun h =>
    not_warning_of_is_error he h.1
  have hA : ¬d.level = Level.Allow := not_allow_of_is_error he
  unfold DiagCtxtInner.emit_diagnostic
  constructor
  · rw [emit_fst hW hA, if_pos he]
  · by_cases hm : HashKey.diag d ∈ s.emitted_diagnostics
    · rw [emit_of_dup hW hA hm, if_pos he]
      rfl
    · obtain ⟨f1, -, -, -, -, -, -⟩ := emit_fresh_fields hW hA hm
      rw [f1, if_pos he]

/-- C2 witness: emitting a concrete Error-level diagnostic from a fresh context yields
the proof token and an error count of one. -/
theorem c2_error_guaranteed_and_counted_witness :
    (DiagCtxtInner.new.emit_diagnostic
        { level := Level.Error, message := "undefined symbol x", children := [] }).1 =
        some ErrorGuaranteed.mk ∧
      (DiagCtxtInner.new.emit_diagnostic
          { level := Level.Error, message := "undefined symbol x",
            children := [] }).2.err_count =
        DiagCtxtInner.new.err_count + 1 :=
  c2_error_guaranteed_and_counted _ _ rfl

/-- C3: in every reachable state of a diagnostic context — after construction and any
sequence of `emit_diagnostic` and `disable_warnings` calls — the deduplicated counters
are bounded by the corresponding totals. -/
theorem c3_deduplicated_le_total (s : DiagCtxtInner) (h : Reachable s) :
    s.deduplicated_err_count ≤ s.err_count ∧
      s.deduplicated_warn_count ≤ s.warn_count := by
  induction h with
  | new => exact ⟨Nat.le_refl _, Nat.le_refl _⟩
  | emit s' d hr ih => exact emit_preserves_dedup_le d ih.1 ih.2
  | disable s' hr ih => exact ih

/-- C3 witness: the invariant evaluated at a concrete reachable state, one Error-level
emission after construction. -/
theorem c3_deduplicated_le_total_witness :
    (DiagCtxtInner.new.emit_diagnostic
          { level := Level.Error, message := "e", children := [] }).2.deduplicated_err_count ≤
        (DiagCtxtInner.new.emit_diagnostic
            { level := Level.Error, message := "e", children := [] }).2.err_count ∧
      (DiagCtxtInner.new.emit_diagnostic
            { level := Level.Error, message := "e",
              children := [] }).2.deduplicated_warn_count ≤
        (DiagCtxtInner.new.emit_diagnostic
            { level := Level.Error, message := "e", children := [] }).2.warn_count :=
  c3_deduplicated_le_total _ (Reachable.emit _ _ Reachable.new)

/-- C5 counterexample: the claim says that for a `Note`-level diagnostic reaching step 5
none of the four counters change; but the code's `bump_warn_count` is unconditional, so
emitting a `Note` from a fresh context leaves `warn_count = 1`, not `0`. -/
theorem c5_counterexample :
    ¬((DiagCtxtInner.new.emit_diagnostic
          { level := Level.Note, message := "n", children := [] }).2.warn_count =
        DiagCtxtInner.new.warn_count) := by
  decide

/-- C5 amended: for every diagnostic at level `Note`, `Help`, `OnceNote` or `OnceHelp`,
`emit_diagnostic` returns no guarantee and increments `warn_count` by one at step 5 (the
level is counted in the warning total, though not in `deduplicated_warn_count`), while
both error counters and the deduplicated warning counter are unchanged at step 5. -/
theorem c5_note_help_bump_warn_count (s : DiagCtxtInner) (d : Diagnostic)
    (hlvl : d.level = Level.Note ∨ d.level = Level.Help ∨
      d.level = Level.OnceNote ∨ d.level = Level.OnceHelp) :
    (s.emit_diagnostic d).1 = none ∧
      (s.emit_diagnostic d).2.warn_count = s.warn_count + 1 ∧
      (s.emit_diagnostic d).2.err_count = s.err_count ∧
      (s.emit_diagnostic d).2.deduplicated_err_count = s.deduplicated_err_count ∧
      (s.emit_diagnostic d).2.deduplicated_warn_count = s.deduplicated_warn_count := by
  have he : ¬d.is_error = true := by
    rcases hlvl with h | h | h | h <;> simp [Diagnostic.is_error, h, Level.is_error]
  have hw2 : ¬d.level = Level.Warning := by
    rcases hlvl with h | h | h | h <;> simp [h]
  have hA : ¬d.level = Level.Allow := by
    rcases hlvl with h | h | h | h <;> simp [h]
  have hW : ¬(d.level = Level.Warning ∧ s.can_emit_warnings = false) := fun h => hw2 h.1
  unfold DiagCtxtInner.emit_diagnostic
  constructor
  · rw [emit_fst hW hA, if_neg he]
  · by_cases hm : HashKey.diag d ∈ s.emitted_diagnostics
    · rw [emit_of_dup hW hA hm, if_neg he]
      exact ⟨rfl, rfl, rfl, rfl⟩
    · obtain ⟨f1, f2, f3, f4, -, -, -⟩ := emit_fresh_fields hW hA hm
      rw [f1, f2, f3, f4]
      simp [he, hw2]

/-- C5 amended witness: a concrete `Note`-level emission from a fresh context. -/
theorem c5_note_help_bump_warn_count_witness :
    (DiagCtxtInner.new.emit_diagnostic
        { level := Level.Note, message := "n", children := [] }).1 = none ∧
      (DiagCtxtInner.new.emit_diagnostic
          { level := Level.Note, message := "n", children := [] }).2.warn_count =
        DiagCtxtInner.new.warn_count + 1 ∧
      (DiagCtxtInner.new.emit_diagnostic
          { level := Level.Note, message := "n", children := [] }).2.err_count =
        DiagCtxtInner.new.err_count ∧
      (DiagCtxtInner.new.emit_diagnostic
          { level := Level.Note, message := "n",
            children := [] }).2.deduplicated_err_count =
        DiagCtxtInner.new.deduplicated_err_count ∧
      (DiagCtxtInner.new.emit_diagnostic
          { level := Level.Note, message := "n",
            children := [] }).2.deduplicated_warn_count =
        DiagCtxtInner.new.deduplicated_warn_count :=
  c5_note_help_bump_warn_count _ _ (Or.inl rfl)

/-- C6: a Warning-level diagnostic emitted while `can_emit_warnings` is false returns
`None` and leaves the entire context state unchanged — no counters, no recorded hash,
no emitter call. -/
theorem c6_disabled_warning_unchanged (s : DiagCtxtInner) (d : Diagnostic)
    (hlvl : d.level = Level.Warning) (hcan : s.can_emit_warnings = false) :
    s.emit_diagnostic d = (none, s) := by
  unfold DiagCtxtInner.emit_diagnostic DiagCtxtInner.emit_diagnostic_without_consuming
  rw [if_pos ⟨hlvl, hcan⟩]

/-- C6 witness: a concrete Warning emitted after `disable_warnings`. -/
theorem c6_disabled_warning_unchanged_witness :
    DiagCtxtInner.new.disable_warnings.emit_diagnostic
        { level := Level.Warning, message := "unused variable y", children := [] } =
      (none, DiagCtxtInner.new.disable_warnings) :=
  c6_disabled_warning_unchanged _ _ rfl rfl

/-- C7: an Allow-level diagnostic, regardless of prior state, returns `None`
unconditionally and changes nothing — no counter, no recorded hash, no emitter call. -/
theorem c7_allow_unchanged (s : DiagCtxtInner) (d : Diagnostic)
    (hlvl : d.level = Level.Allow) :
    s.emit_diagnostic d = (none, s) := by
  have hW : ¬(d.level = Level.Warning ∧ s.can_emit_warnings = false) := by
    simp [hlvl]
  unfold DiagCtxtInner.emit_diagnostic DiagCtxtInner.emit_diagnostic_without_consuming
  rw [if_neg hW, if_pos hlvl]

/-- C7 witness: a concrete Allow-level diagnostic on a context that already has state. -/
theorem c7_allow_unchanged_witness :
    (DiagCtxtInner.new.emit_diagnostic
          { level := Level.Error, message := "e", children := [] }).2.emit_diagnostic
        { level := Level.Allow, message := "a", children := [] } =
      (none,
        (DiagCtxtInner.new.emit_diagnostic
            { level := Level.Error, message := "e", children := [] }).2) :=
  c7_allow_unchanged _ _ rfl

/-- C9: every `emit_diagnostic` call is monotone on the context state: none of the four
counters decreases, and the emitted-hash set afterwards contains every hash recorded
before the call. -/
theorem c9_emit_monotone (s : DiagCtxtInner) (d : Diagnostic) :
    s.err_count ≤ (s.emit_diagnostic d).2.err_count ∧
      s.deduplicated_err_count ≤ (s.emit_diagnostic d).2.deduplicated_err_count ∧
      s.warn_count ≤ (s.emit_diagnostic d).2.warn_count ∧
      s.deduplicated_warn_count ≤ (s.emit_diagnostic d).2.deduplicated_warn_count ∧
      ∀ x ∈ s.emitted_diagnostics, x ∈ (s.emit_diagnostic d).2.emitted_diagnostics := by
  unfold DiagCtxtInner.emit_diagnostic
  refine ⟨?_, ?_, ?_, ?_, fun x hx => emit_mem_mono d hx⟩
  all_goals by_cases hW : d.level = Level.Warning ∧ s.can_emit_warnings = false
  case pos | pos | pos | pos =>
    unfold DiagCtxtInner.emit_diagnostic_without_consuming
    rw [if_pos hW]
  all_goals by_cases hA : d.level = Level.Allow
  case pos | pos | pos | pos =>
    unfold DiagCtxtInner.emit_diagnostic_without_consuming
    rw [if_neg hW, if_pos hA]
  all_goals by_cases hm : HashKey.diag d ∈ s.emitted_diagnostics
  case pos | pos | pos | pos =>
    rw [emit_of_dup hW hA hm]
    by_cases he : d.is_error = true
    · rw [if_pos he]
      first
      | exact Nat.le_succ _
      | exact Nat.le_refl _
    · rw [if_neg he]
      first
      | exact Nat.le_succ _
      | exact Nat.le_refl _
  all_goals obtain ⟨f1, f2, f3, f4, -, -, -⟩ := emit_fresh_fields hW hA hm
  · rw [f1]; exact Nat.le_add_right _ _
  · rw [f3]; exact Nat.le_add_right _ _
  · rw [f2]; exact Nat.le_add_right _ _
  · rw [f4]; exact Nat.le_add_right _ _

/-- C10: for every enumeration produced by the `str_enum!` macro and every value of it,
the generated `Display` implementation writes exactly `to_str`'s string, so formatting a
value and taking its `to_str` representation agree. -/
theorem c10_display_writes_to_str (e : StrEnumDef) (v : e.Value) (f : Formatter) :
    e.fmt v f = { buf := f.buf ++ e.to_str v } ∧
      (e.fmt v { buf := "" }).buf = e.to_str v := by
  constructor
  · rfl
  · show "" ++ e.to_str v = e.to_str v
    simp

/-- C1: a diagnostic with identical level, message and children emitted twice (starting
from a state where its content hash is not yet recorded) has its corresponding
deduplicated counter increase by exactly one, the emitter invoked exactly once across
the two calls, and the corresponding total counter increase by two: the second,
content-identical emission is recognized as already emitted and not re-rendered. -/
theorem c1_identical_twice_dedup (s : DiagCtxtInner) (d : Diagnostic)
    (hfresh : HashKey.diag d ∉ s.emitted_diagnostics)
    (hlvl : d.is_error = true ∨
      (d.level = Level.Warning ∧ s.can_emit_warnings = true)) :
    ((s.emit_diagnostic d).2.emit_diagnostic d).2.emitter_trace.length =
        s.emitter_trace.length + 1 ∧
      (d.is_error = true →
        ((s.emit_diagnostic d).2.emit_diagnostic d).2.deduplicated_err_count =
            s.deduplicated_err_count + 1 ∧
          ((s.emit_diagnostic d).2.emit_diagnostic d).2.err_count = s.err_count + 2) ∧
      (d.level = Level.Warning →
        ((s.emit_diagnostic d).2.emit_diagnostic d).2.deduplicated_warn_count =
            s.deduplicated_warn_count + 1 ∧
          ((s.emit_diagnostic d).2.emit_diagnostic d).2.warn_count =
            s.warn_count + 2) := by
  have hW : ¬(d.level = Level.Warning ∧ s.can_emit_warnings = false) := by
    rcases hlvl with he | ⟨hw, hc⟩
    · exact fun h => not_warning_of_is_error he h.1
    · exact fun h => absurd (hc.symm.trans h.2) (by decide)
  have hA : ¬d.level = Level.Allow := by
    rcases hlvl with he | ⟨hw, hc⟩
    · exact not_allow_of_is_error he
    · rw [hw]; decide
  unfold DiagCtxtInner.emit_diagnostic
  obtain ⟨f1, f2, f3, f4, f5, f6, f7⟩ := emit_fresh_fields hW hA hfresh
  have hW₁ : ¬(d.level = Level.Warning ∧
      (s.emit_diagnostic_without_consuming d).2.can_emit_warnings = false) := by
    intro h
    rw [f6] at h
    exact hW h
  have D := emit_of_dup hW₁ hA f7
  rw [D]
  by_cases he : d.is_error = true
  · rw [if_pos he]
    rw [if_pos he] at f1 f3
    refine ⟨?_, fun _ => ⟨?_, ?_⟩, fun hw => absurd hw (not_warning_of_is_error he)⟩
    · simp [DiagCtxtInner.bump_err_count, f5]
    · simp [DiagCtxtInner.bump_err_count, f3]
    · simp only [DiagCtxtInner.bump_err_count]
      rw [f1]
  · rw [if_neg he]
    have hw : d.level = Level.Warning := by
      rcases hlvl with he' | ⟨hw, _⟩
      · exact absurd he' he
      · exact hw
    rw [if_pos hw] at f4
    rw [if_neg he] at f2
    refine ⟨?_, fun he' => absurd he' he, fun _ => ⟨?_, ?_⟩⟩
    · simp [DiagCtxtInner.bump_warn_count, f5]
    · simp [DiagCtxtInner.bump_warn_count, f4]
    · simp only [DiagCtxtInner.bump_warn_count]
      rw [f2]

/-- C1 witness: the spec's scenario — the same Error-level diagnostic emitted twice from
a fresh context gives `err_count = 2`, `deduplicated_err_count = 1`, one emitter call. -/
theorem c1_identical_twice_dedup_witness :
    ((DiagCtxtInner.new.emit_diagnostic
              { level := Level.Error, message := "undefined symbol x",
                children := [] }).2.emit_diagnostic
          { level := Level.Error, message := "undefined symbol x",
            children := [] }).2.emitter_trace.length =
        DiagCtxtInner.new.emitter_trace.length + 1 ∧
      ((Diagnostic.mk Level.Error "undefined symbol x" []).is_error = true →
        ((DiagCtxtInner.new.emit_diagnostic
                  { level := Level.Error, message := "undefined symbol x",
                    children := [] }).2.emit_diagnostic
              { level := Level.Error, message := "undefined symbol x",
                children := [] }).2.deduplicated_err_count =
            DiagCtxtInner.new.deduplicated_err_count + 1 ∧
          ((DiagCtxtInner.new.emit_diagnostic
                    { level := Level.Error, message := "undefined symbol x",
                      children := [] }).2.emit_diagnostic
                { level := Level.Error, message := "undefined symbol x",
                  children := [] }).2.err_count =
            DiagCtxtInner.new.err_count + 2) ∧
      ((Diagnostic.mk Level.Error "undefined symbol x" []).level = Level.Warning →
        ((DiagCtxtInner.new.emit_diagnostic
                  { level := Level.Error, message := "undefined symbol x",
                    children := [] }).2.emit_diagnostic
              { level := Level.Error, message := "undefined symbol x",
                children := [] }).2.deduplicated_warn_count =
            DiagCtxtInner.new.deduplicated_warn_count + 1 ∧
          ((DiagCtxtInner.new.emit_diagnostic
                    { level := Level.Error, message := "undefined symbol x",
                      children := [] }).2.emit_diagnostic
                { level := Level.Error, message := "undefined symbol x",
                  children := [] }).2.warn_count =
            DiagCtxtInner.new.warn_count + 2) :=
  c1_identical_twice_dedup DiagCtxtInner.new
    { level := Level.Error, message := "undefined symbol x", children := [] }
    (by decide) (Or.inl rfl)

/-- C4: when a not-previously-emitted diagnostic that reaches the emission path is
emitted, the rendered diagnostic handed to the emitter has exactly the children given by
the once-trimming rule: every `OnceNote`/`OnceHelp` child whose own content was already
recorded is removed, all other children are kept in their original order (a sublist with
all non-`Once*` children intact), a kept `Once*` child was not previously recorded, and
an already-recorded `Once*` child is never kept. -/
theorem c4_once_children_trimmed (s : DiagCtxtInner) (d : Diagnostic)
    (hW : ¬(d.level = Level.Warning ∧ s.can_emit_warnings = false))
    (hA : ¬d.level = Level.Allow)
    (hfresh : HashKey.diag d ∉ s.emitted_diagnostics) :
    (s.emit_diagnostic d).2.emitter_trace =
        s.emitter_trace ++
          [{ d with children :=
              onceKeptSpec (HashKey.diag d :: s.emitted_diagnostics) d.children }] ∧
      List.Sublist
        (onceKeptSpec (HashKey.diag d :: s.emitted_diagnostics) d.children)
        d.children ∧
      (onceKeptSpec (HashKey.diag d :: s.emitted_diagnostics) d.children).filter
          (fun c =>
            !decide (c.level = Level.OnceNote) && !decide (c.level = Level.OnceHelp)) =
        d.children.filter
          (fun c =>
            !decide (c.level = Level.OnceNote) && !decide (c.level = Level.OnceHelp)) ∧
      (∀ c ∈ d.children, (c.level = Level.OnceNote ∨ c.level = Level.OnceHelp) →
        HashKey.sub c ∈ s.emitted_diagnostics →
        c ∉ onceKeptSpec (HashKey.diag d :: s.emitted_diagnostics) d.children) ∧
      (∀ c ∈ onceKeptSpec (HashKey.diag d :: s.emitted_diagnostics) d.children,
        (c.level = Level.OnceNote ∨ c.level = Level.OnceHelp) →
        HashKey.sub c ∉ s.emitted_diagnostics) := by
  refine ⟨?_, onceKeptSpec_sublist _ _, onceKeptSpec_filter _ _, ?_, ?_⟩
  · unfold DiagCtxtInner.emit_diagnostic
    exact (emit_fresh_fields hW hA hfresh).2.2.2.2.1
  · intro c hc hlv hm
    exact onceKeptSpec_not_mem_of_seen _ hlv _ (List.mem_cons_of_mem _ hm)
  · intro c hck hlv hm
    exact onceKeptSpec_not_seen_of_mem _ hlv _ hck (List.mem_cons_of_mem _ hm)

/-- C4 witness: the spec's scenario — a `OnceNote` child shared by two structurally
distinct Error-level parents is rendered with the first parent only; the second parent
is still rendered, with that child removed. -/
theorem c4_once_children_trimmed_witness :
    ((DiagCtxtInner.new.emit_diagnostic
            { level := Level.Error, message := "e1",
              children := [{ level := Level.OnceNote,
                             message := "shared" }] }).2.emit_diagnostic
        { level := Level.Error, message := "e2",
          children := [{ level := Level.OnceNote,
                         message := "shared" }] }).2.emitter_trace =
      [{ level := Level.Error, message := "e1",
         children := [{ level := Level.OnceNote, message := "shared" }] },
       { level := Level.Error, message := "e2", children := [] }] :=
  ((c4_once_children_trimmed
        (DiagCtxtInner.new.emit_diagnostic
          { level := Level.Error, message := "e1",
            children := [{ level := Level.OnceNote, message := "shared" }] }).2
        { level := Level.Error, message := "e2",
          children := [{ level := Level.OnceNote, message := "shared" }] }
        (by decide) (by decide) (by decide)).1).trans (by decide)

end Solar
